import Mathlib

/-!
Verification of the VaultGrid confidential document registry
(src/contracts/VaultGrid.sol) against its specification.

Shallow embedding notes:
* Ethereum addresses are modelled as `Nat`; `0` is `address(0)`.
* The FHE handle type `eaddress` is opaque to the contract, so it is
  modelled as an opaque `Nat` handle.
* `block.timestamp` and `msg.sender` are explicit parameters of each
  operation.
* Solidity mappings return a zero-initialised value for absent keys, so
  `_documents` is a total function defaulting to `defaultDocument` and
  `_editors` a total function defaulting to `false`.
* A reverting call in the EVM rolls back every state change, so a failed
  operation is modelled as `Except.error` with the pre-state retained;
  `FHE.fromExternal` failures in `createDocument` likewise revert the whole
  transaction, hence only successful creations appear as steps.
* `FHE.allowThis` / `FHE.allow` are recorded in the `aclSelf` / `acl`
  fields so the capability-delegation effects stay visible in the model.
-/

namespace VaultGrid

/-- An Ethereum address, modelled as a natural number; `0` is the zero
address. -/
abbrev Address := Nat

/-- The `Document` struct of VaultGrid.sol. `encryptedKey` is the opaque
`eaddress` handle. -/
structure Document where
  name : String
  encryptedBody : String
  encryptedKey : Nat
  owner : Address
  createdAt : Nat
  updatedAt : Nat
  deriving Repr, DecidableEq

/-- The zero-initialised `Document` that a Solidity mapping yields for an
absent key. -/
def defaultDocument : Document :=
  { name := "", encryptedBody := "", encryptedKey := 0, owner := 0,
    createdAt := 0, updatedAt := 0 }

/-- The contract storage: `_documentCount`, `_documents`, `_editors`,
plus the FHE access-control list written by `FHE.allow` (`acl`, keyed by
key handle and address) and `FHE.allowThis` (`aclSelf`, keyed by key
handle). -/
structure State where
  documentCount : Nat
  documents : Nat → Document
  editors : Nat → Address → Bool
  acl : Nat → Address → Bool
  aclSelf : Nat → Bool

/-- The storage of a freshly deployed contract: zero-initialised. -/
def initState : State :=
  { documentCount := 0
    documents := fun _ => defaultDocument
    editors := fun _ _ => false
    acl := fun _ _ => false
    aclSelf := fun _ => false }

/-- The contract's custom errors. -/
inductive VGError where
  | DocumentNotFound (documentId : Nat)
  | NotAuthorized (caller : Address)
  | InvalidAddress
  deriving Repr, DecidableEq

/-- `_getDocument`: fetches `_documents[documentId]` and reverts with
`DocumentNotFound` when its `owner` is the zero address. -/
def getDocumentChecked (s : State) (documentId : Nat) :
    Except VGError Document :=
  let doc := s.documents documentId
  if doc.owner = 0 then .error (.DocumentNotFound documentId) else .ok doc

/-- `getDocument`: external view, returns the document data via
`_getDocument`. -/
def getDocument (s : State) (documentId : Nat) : Except VGError Document :=
  getDocumentChecked s documentId

/-- `isEditor`: external view; first runs `_getDocument documentId`
(reverting with `DocumentNotFound` when absent), then returns
`_editors[documentId][user]`. -/
def isEditor (s : State) (documentId : Nat) (user : Address) :
    Except VGError Bool :=
  match getDocumentChecked s documentId with
  | .error e => .error e
  | .ok _ => .ok (s.editors documentId user)

/-- `createDocument`: increments `_documentCount`, stores a new document
with empty body, `msg.sender` as owner and `block.timestamp` as both
timestamps, marks the sender as editor, and issues the FHE permissions
(`allowThis key`, `allow key sender`). `key` is the handle produced by a
successful `FHE.fromExternal`; an invalid proof reverts the whole call, so
only the successful path is a state transition. Returns the new id and
the new state. -/
def createDocument (s : State) (sender : Address) (name : String)
    (key : Nat) (time : Nat) : Nat × State :=
  let documentId := s.documentCount + 1
  (documentId,
    { documentCount := documentId
      documents := fun i =>
        if i = documentId then
          { name := name, encryptedBody := "", encryptedKey := key,
            owner := sender, createdAt := time, updatedAt := time }
        else s.documents i
      editors := fun i u =>
        if i = documentId ∧ u = sender then true else s.editors i u
      acl := fun k u => if k = key ∧ u = sender then true else s.acl k u
      aclSelf := fun k => if k = key then true else s.aclSelf k })

/-- `updateDocument`: fetches the document via `_getDocument` (reverting
with `DocumentNotFound` if absent), reverts with `NotAuthorized` when
`msg.sender` is not an editor, otherwise overwrites `encryptedBody` and
refreshes `updatedAt` to `block.timestamp`. -/
def updateDocument (s : State) (sender : Address) (documentId : Nat)
    (encryptedBody : String) (time : Nat) : Except VGError State :=
  match getDocumentChecked s documentId with
  | .error e => .error e
  | .ok doc =>
    if ¬ s.editors documentId sender then .error (.NotAuthorized sender)
    else .ok
      { s with documents := fun i =>
          if i = documentId then
            { doc with encryptedBody := encryptedBody, updatedAt := time }
          else s.documents i }

/-- `grantAccess`: reverts with `InvalidAddress` when `user` is the zero
address, then fetches the document via `_getDocument` (reverting with
`DocumentNotFound` if absent), reverts with `NotAuthorized` when
`msg.sender` is not the owner, otherwise marks `user` as editor and issues
`FHE.allow(doc.encryptedKey, user)`. -/
def grantAccess (s : State) (sender : Address) (documentId : Nat)
    (user : Address) : Except VGError State :=
  if user = 0 then .error .InvalidAddress
  else
    match getDocumentChecked s documentId with
    | .error e => .error e
    | .ok doc =>
      if sender ≠ doc.owner then .error (.NotAuthorized sender)
      else .ok
        { s with
          editors := fun i u =>
            if i = documentId ∧ u = user then true else s.editors i u
          acl := fun k u =>
            if k = doc.encryptedKey ∧ u = user then true else s.acl k u }

/-- A state-mutating call to the contract, with `msg.sender` and
`block.timestamp` made explicit. -/
inductive Op where
  | create (sender : Address) (name : String) (key : Nat) (time : Nat)
  | update (sender : Address) (documentId : Nat) (encryptedBody : String)
      (time : Nat)
  | grant (sender : Address) (documentId : Nat) (user : Address)
  deriving Repr, DecidableEq

/-- Whether an `Op` is a `create`. -/
def Op.isCreate : Op → Bool
  | .create _ _ _ _ => true
  | _ => false

/-- Applying one call to the storage: a reverting call (EVM semantics)
leaves the storage exactly as it was. -/
def applyOp (s : State) : Op → State
  | .create sender name key time => (createDocument s sender name key time).2
  | .update sender documentId body time =>
    match updateDocument s sender documentId body time with
    | .ok s' => s'
    | .error _ => s
  | .grant sender documentId user =>
    match grantAccess s sender documentId user with
    | .ok s' => s'
    | .error _ => s

/-- One step that also records the id returned by each successful
`createDocument`. -/
def applyOpAcc (p : State × List Nat) (op : Op) : State × List Nat :=
  match op with
  | .create sender name key time =>
    let r := createDocument p.1 sender name key time
    (r.2, p.2 ++ [r.1])
  | _ => (applyOp p.1 op, p.2)

/-- The storage reached by running a sequence of calls from a fresh
deployment. -/
def run (ops : List Op) : State := ops.foldl applyOp initState

/-- The storage together with the list of ids returned by the successful
creations, after running a sequence of calls from a fresh deployment. -/
def runAcc (ops : List Op) : State × List Nat :=
  ops.foldl applyOpAcc (initState, [])

/-! ### Unfolding characterizations -/

theorem getDocumentChecked_eq (s : State) (id : Nat) :
    getDocumentChecked s id =
      if (s.documents id).owner = 0 then .error (.DocumentNotFound id)
      else .ok (s.documents id) := rfl

theorem updateDocument_ok (s : State) (sender : Address) (id : Nat)
    (body : String) (t : Nat) (s' : State)
    (h : updateDocument s sender id body t = .ok s') :
    s' = { s with documents := fun i =>
        if i = id then
          { s.documents id with encryptedBody := body, updatedAt := t }
        else s.documents i } ∧
      (s.documents id).owner ≠ 0 ∧ s.editors id sender = true := by
  unfold updateDocument at h
  rw [getDocumentChecked_eq] at h
  by_cases h0 : (s.documents id).owner = 0
  · rw [if_pos h0] at h; exact absurd h (by simp)
  · rw [if_neg h0] at h
    by_cases h1 : s.editors id sender = true
    · simp only [h1, not_true_eq_false, if_false, Except.ok.injEq] at h
      exact ⟨h.symm, h0, h1⟩
    · simp only [eq_false h1, not_false_eq_true, if_true] at h
      exact absurd h (by simp)

theorem grantAccess_ok (s : State) (sender : Address) (id : Nat)
    (user : Address) (s' : State)
    (h : grantAccess s sender id user = .ok s') :
    s' = { s with
        editors := fun i u =>
          if i = id ∧ u = user then true else s.editors i u
        acl := fun k u =>
          if k = (s.documents id).encryptedKey ∧ u = user then true
          else s.acl k u } ∧
      user ≠ 0 ∧ (s.documents id).owner ≠ 0 ∧
      sender = (s.documents id).owner := by
  unfold grantAccess at h
  by_cases hu : user = 0
  · rw [if_pos hu] at h; exact absurd h (by simp)
  · rw [if_neg hu, getDocumentChecked_eq] at h
    by_cases h0 : (s.documents id).owner = 0
    · rw [if_pos h0] at h; exact absurd h (by simp)
    · rw [if_neg h0] at h
      by_cases hs : sender = (s.documents id).owner
      · simp only [hs, ne_eq, not_true_eq_false, if_false,
          Except.ok.injEq] at h
        exact ⟨h.symm, hu, h0, hs⟩
      · simp only [ne_eq, hs, not_false_eq_true, if_true] at h
        exact absurd h (by simp)

theorem grantAccess_succeeds (s : State) (sender : Address) (id : Nat)
    (user : Address) (hu : user ≠ 0) (h0 : (s.documents id).owner ≠ 0)
    (hs : sender = (s.documents id).owner) :
    grantAccess s sender id user = .ok { s with
      editors := fun i u =>
        if i = id ∧ u = user then true else s.editors i u
      acl := fun k u =>
        if k = (s.documents id).encryptedKey ∧ u = user then true
        else s.acl k u } := by
  unfold grantAccess
  rw [if_neg hu, getDocumentChecked_eq, if_neg h0]
  simp only [hs, ne_eq, not_true_eq_false, if_false]

theorem updateDocument_succeeds (s : State) (sender : Address) (id : Nat)
    (body : String) (t : Nat) (h0 : (s.documents id).owner ≠ 0)
    (h1 : s.editors id sender = true) :
    updateDocument s sender id body t = .ok { s with
      documents := fun i =>
        if i = id then
          { s.documents id with encryptedBody := body, updatedAt := t }
        else s.documents i } := by
  unfold updateDocument
  rw [getDocumentChecked_eq, if_neg h0]
  simp only [h1, not_true_eq_false, if_false]

/-! ### Counter and id-list lemmas -/

theorem applyOp_documentCount (s : State) (op : Op) :
    (applyOp s op).documentCount =
      if op.isCreate then s.documentCount + 1 else s.documentCount := by
  cases op with
  | create sender name key time => rfl
  | update sender id body time =>
    show (match updateDocument s sender id body time with
      | .ok s' => s' | .error _ => s).documentCount = s.documentCount
    cases h : updateDocument s sender id body time with
    | error e => rfl
    | ok s' => rw [(updateDocument_ok s sender id body time s' h).1]
  | grant sender id user =>
    show (match grantAccess s sender id user with
      | .ok s' => s' | .error _ => s).documentCount = s.documentCount
    cases h : grantAccess s sender id user with
    | error e => rfl
    | ok s' => rw [(grantAccess_ok s sender id user s' h).1]

theorem foldl_applyOp_documentCount (ops : List Op) (s : State) :
    (ops.foldl applyOp s).documentCount =
      s.documentCount + ops.countP (fun o => o.isCreate) := by
  induction ops generalizing s with
  | nil => simp [List.countP_nil]
  | cons op rest ih =>
    rw [List.foldl_cons, ih, applyOp_documentCount, List.countP_cons]
    cases op with
    | create _ _ _ _ => simp [Op.isCreate]; omega
    | update _ _ _ _ => simp [Op.isCreate]
    | grant _ _ _ => simp [Op.isCreate]

theorem foldl_applyOpAcc_fst (ops : List Op) (s : State) (l : List Nat) :
    (ops.foldl applyOpAcc (s, l)).1 = ops.foldl applyOp s := by
  induction ops generalizing s l with
  | nil => rfl
  | cons op rest ih =>
    rw [List.foldl_cons, List.foldl_cons]
    cases op with
    | create sender name key time => exact ih _ _
    | update sender id body time => exact ih _ _
    | grant sender id user => exact ih _ _

theorem foldl_applyOpAcc_snd (ops : List Op) (s : State) (l : List Nat) :
    (ops.foldl applyOpAcc (s, l)).2 =
      l ++ List.range' (s.documentCount + 1)
        (ops.countP (fun o => o.isCreate)) := by
  induction ops generalizing s l with
  | nil => simp [List.countP_nil]
  | cons op rest ih =>
    rw [List.foldl_cons, List.countP_cons]
    cases op with
    | create sender name key time =>
      show (rest.foldl applyOpAcc
        ((createDocument s sender name key time).2,
          l ++ [(createDocument s sender name key time).1])).2 = _
      rw [ih]
      show (l ++ [s.documentCount + 1]) ++
          List.range' (s.documentCount + 1 + 1) _ = _
      rw [List.append_assoc]
      simp [Op.isCreate, List.range']
    | update sender id body time =>
      show (rest.foldl applyOpAcc (applyOp s (.update sender id body time), l)).2 = _
      rw [ih, applyOp_documentCount]
      simp [Op.isCreate]
    | grant sender id user =>
      show (rest.foldl applyOpAcc (applyOp s (.grant sender id user), l)).2 = _
      rw [ih, applyOp_documentCount]
      simp [Op.isCreate]


/-! ### Reachability invariants -/

theorem applyOp_create (s : State) (sender : Address) (name : String)
    (key time : Nat) :
    applyOp s (.create sender name key time) =
      (createDocument s sender name key time).2 := rfl

theorem createDocument_documents (s : State) (sender : Address)
    (name : String) (key time : Nat) (i : Nat) :
    (createDocument s sender name key time).2.documents i =
      if i = s.documentCount + 1 then
        { name := name, encryptedBody := "", encryptedKey := key,
          owner := sender, createdAt := time, updatedAt := time }
      else s.documents i := rfl

theorem createDocument_editors (s : State) (sender : Address)
    (name : String) (key time : Nat) (i : Nat) (u : Address) :
    (createDocument s sender name key time).2.editors i u =
      if i = s.documentCount + 1 ∧ u = sender then true
      else s.editors i u := rfl

/-- Invariant: every existing document's owner is in that document's
editor set. -/
def OwnerIsEditor (s : State) : Prop :=
  ∀ id, (s.documents id).owner ≠ 0 →
    s.editors id ((s.documents id).owner) = true

theorem ownerIsEditor_applyOp (s : State) (op : Op)
    (hs : OwnerIsEditor s) : OwnerIsEditor (applyOp s op) := by
  cases op with
  | create sender name key time =>
    intro id h
    rw [applyOp_create, createDocument_documents] at h
    rw [applyOp_create, createDocument_editors, createDocument_documents]
    by_cases hid : id = s.documentCount + 1
    · simp [hid]
    · rw [if_neg hid] at h
      rw [if_neg hid, if_neg (fun hc => hid hc.1)]
      exact hs id h
  | update sender documentId body time =>
    show OwnerIsEditor (match updateDocument s sender documentId body time with
      | .ok s' => s' | .error _ => s)
    cases hup : updateDocument s sender documentId body time with
    | error e => exact hs
    | ok s' =>
      show OwnerIsEditor s'
      obtain ⟨hs', _, _⟩ := updateDocument_ok s sender documentId body time s' hup
      subst hs'
      intro id h
      by_cases hid : id = documentId
      · subst hid
        simp only [if_pos rfl] at h ⊢
        exact hs id h
      · simp only [if_neg hid] at h ⊢
        exact hs id h
  | grant sender documentId user =>
    show OwnerIsEditor (match grantAccess s sender documentId user with
      | .ok s' => s' | .error _ => s)
    cases hg : grantAccess s sender documentId user with
    | error e => exact hs
    | ok s' =>
      show OwnerIsEditor s'
      obtain ⟨hs', _, _, _⟩ := grantAccess_ok s sender documentId user s' hg
      subst hs'
      intro id h
      by_cases hc : id = documentId ∧ (s.documents id).owner = user
      · show (if id = documentId ∧ (s.documents id).owner = user then true
          else s.editors id ((s.documents id).owner)) = true
        rw [if_pos hc]
      · show (if id = documentId ∧ (s.documents id).owner = user then true
          else s.editors id ((s.documents id).owner)) = true
        rw [if_neg hc]
        exact hs id h

/-- Invariant: ids outside `1 .. documentCount` hold no document (the
storage there is still zero-initialised). -/
def DocIdsBounded (s : State) : Prop :=
  ∀ id, id = 0 ∨ s.documentCount < id → s.documents id = defaultDocument

theorem docIdsBounded_applyOp (s : State) (op : Op)
    (hs : DocIdsBounded s) : DocIdsBounded (applyOp s op) := by
  cases op with
  | create sender name key time =>
    intro id h
    have hcount : (applyOp s (.create sender name key time)).documentCount =
        s.documentCount + 1 := rfl
    rw [hcount] at h
    rw [applyOp_create, createDocument_documents]
    rw [if_neg (by omega : ¬ id = s.documentCount + 1)]
    exact hs id (by omega)
  | update sender documentId body time =>
    show DocIdsBounded (match updateDocument s sender documentId body time with
      | .ok s' => s' | .error _ => s)
    cases hup : updateDocument s sender documentId body time with
    | error e => exact hs
    | ok s' =>
      show DocIdsBounded s'
      obtain ⟨hs', hown, _⟩ :=
        updateDocument_ok s sender documentId body time s' hup
      subst hs'
      intro id h
      have hid : id ≠ documentId := by
        intro hc
        subst hc
        exact hown (by rw [hs id h]; rfl)
      simp only [if_neg hid]
      exact hs id h
  | grant sender documentId user =>
    show DocIdsBounded (match grantAccess s sender documentId user with
      | .ok s' => s' | .error _ => s)
    cases hg : grantAccess s sender documentId user with
    | error e => exact hs
    | ok s' =>
      show DocIdsBounded s'
      obtain ⟨hs', _, _, _⟩ := grantAccess_ok s sender documentId user s' hg
      subst hs'
      exact hs

theorem ownerIsEditor_init : OwnerIsEditor initState := by
  intro id h
  exact absurd rfl h

theorem docIdsBounded_init : DocIdsBounded initState := by
  intro id h
  rfl

theorem ownerIsEditor_run (ops : List Op) : OwnerIsEditor (run ops) := by
  show OwnerIsEditor (ops.foldl applyOp initState)
  have key : forall s, OwnerIsEditor s -> OwnerIsEditor (ops.foldl applyOp s) := by
    induction ops with
    | nil => intro s h; exact h
    | cons op rest ih =>
      intro s h
      exact ih _ (ownerIsEditor_applyOp s op h)
  exact key initState ownerIsEditor_init

theorem docIdsBounded_run (ops : List Op) : DocIdsBounded (run ops) := by
  show DocIdsBounded (ops.foldl applyOp initState)
  have key : forall s, DocIdsBounded s -> DocIdsBounded (ops.foldl applyOp s) := by
    induction ops with
    | nil => intro s h; exact h
    | cons op rest ih =>
      intro s h
      exact ih _ (docIdsBounded_applyOp s op h)
  exact key initState docIdsBounded_init

/-- `applyOp` never removes an editor: the access set only grows. -/
theorem editors_mono_applyOp (s : State) (op : Op) (i : Nat) (u : Address)
    (h : s.editors i u = true) : (applyOp s op).editors i u = true := by
  cases op with
  | create sender name key time =>
    rw [applyOp_create, createDocument_editors]
    by_cases hc : i = s.documentCount + 1 ∧ u = sender
    · rw [if_pos hc]
    · rw [if_neg hc]; exact h
  | update sender documentId body time =>
    show (match updateDocument s sender documentId body time with
      | .ok s' => s' | .error _ => s).editors i u = true
    cases hup : updateDocument s sender documentId body time with
    | error e => exact h
    | ok s' =>
      obtain ⟨hs', _, _⟩ :=
        updateDocument_ok s sender documentId body time s' hup
      subst hs'
      exact h
  | grant sender documentId user =>
    show (match grantAccess s sender documentId user with
      | .ok s' => s' | .error _ => s).editors i u = true
    cases hg : grantAccess s sender documentId user with
    | error e => exact h
    | ok s' =>
      obtain ⟨hs', _, _, _⟩ := grantAccess_ok s sender documentId user s' hg
      subst hs'
      show (if i = documentId ∧ u = user then true else s.editors i u) = true
      by_cases hc : i = documentId ∧ u = user
      · rw [if_pos hc]
      · rw [if_neg hc]; exact h

/-- `isEditor` on a state whose `editors` and `acl` fields were replaced:
document lookup is unchanged and the new editor table is consulted. -/
theorem isEditor_setEditors (s : State) (f : Nat → Address → Bool)
    (g : Nat → Address → Bool) (i : Nat) (u : Address) :
    isEditor { s with editors := f, acl := g } i u =
      (match getDocumentChecked s i with
       | .error e => .error e
       | .ok _ => .ok (f i u)) := rfl

/-! ### The claims -/

/-- Claim C10: `grantAccess` checks the target before anything else, so in
every state, for every document id (existing or not) and every caller,
granting to the zero identity fails with `InvalidAddress` — never with
`DocumentNotFound` or `NotAuthorized`. -/
theorem claim_C10 (s : State) (sender : Address) (documentId : Nat) :
    grantAccess s sender documentId 0 = .error .InvalidAddress := rfl

/-- Claim C7 (amended): for a document id whose owner field is unset (the
document does not exist), `isEditor` fails with `DocumentNotFound` rather
than returning `false`, because it validates existence first. -/
theorem claim_C7 (s : State) (documentId : Nat) (user : Address)
    (h : (s.documents documentId).owner = 0) :
    isEditor s documentId user = .error (.DocumentNotFound documentId) := by
  unfold isEditor
  rw [getDocumentChecked_eq, if_pos h]

/-- Claim C7 witness: on a fresh deployment, `isEditor 1 5` fails with
`DocumentNotFound 1`. -/
theorem claim_C7_witness :
    (initState.documents 1).owner = 0 ∧
    isEditor initState 1 5 = .error (.DocumentNotFound 1) :=
  ⟨rfl, claim_C7 initState 1 5 rfl⟩

/-- Claim C7 counterexample: the claim as stated — that the membership
query on a nonexistent document id returns `false` rather than failing —
is refuted on a fresh deployment at id 1: `isEditor` fails with
`DocumentNotFound 1` and does not return `.ok false`. -/
theorem claim_C7_counterexample :
    isEditor initState 1 5 = .error (.DocumentNotFound 1) ∧
    isEditor initState 1 5 ≠ .ok false :=
  ⟨rfl, fun h => Except.noConfusion h⟩

/-- Claim C5: for every state with an existing document `documentId` and
every caller that is not in its editor set, `updateDocument` fails with
`NotAuthorized` and the entire state is left unchanged, so in particular
`encryptedBody` and `updatedAt` keep their prior values. -/
theorem claim_C5 (s : State) (sender : Address) (documentId : Nat)
    (body : String) (time : Nat)
    (hex : (s.documents documentId).owner ≠ 0)
    (hmem : s.editors documentId sender = false) :
    updateDocument s sender documentId body time =
      .error (.NotAuthorized sender) ∧
    applyOp s (.update sender documentId body time) = s := by
  have herr : updateDocument s sender documentId body time =
      .error (.NotAuthorized sender) := by
    unfold updateDocument
    rw [getDocumentChecked_eq, if_neg hex]
    simp only [hmem, Bool.false_eq_true, not_false_eq_true, if_true]
  refine ⟨herr, ?_⟩
  show (match updateDocument s sender documentId body time with
    | .ok s' => s' | .error _ => s) = s
  rw [herr]

/-- Claim C5 witness: Bob (5) is not an editor of Alice's (7) document 1,
so his update fails with `NotAuthorized` and the state is untouched. -/
theorem claim_C5_witness :
    ((run [Op.create 7 "plan" 11 100]).documents 1).owner ≠ 0 ∧
    (run [Op.create 7 "plan" 11 100]).editors 1 5 = false ∧
    (updateDocument (run [Op.create 7 "plan" 11 100]) 5 1 "x" 200 =
      .error (.NotAuthorized 5) ∧
    applyOp (run [Op.create 7 "plan" 11 100]) (.update 5 1 "x" 200) =
      run [Op.create 7 "plan" 11 100]) :=
  ⟨by decide, by decide,
    claim_C5 (run [Op.create 7 "plan" 11 100]) 5 1 "x" 200
      (by decide) (by decide)⟩

/-- Claim C6: for every state with an existing document, every non-zero
target and every caller other than the document's owner, `grantAccess`
fails with `NotAuthorized` — the statement makes no assumption about the
caller, so it covers callers that are themselves editors. -/
theorem claim_C6 (s : State) (sender : Address) (documentId : Nat)
    (target : Address) (htarget : target ≠ 0)
    (hex : (s.documents documentId).owner ≠ 0)
    (hnotowner : sender ≠ (s.documents documentId).owner) :
    grantAccess s sender documentId target =
      .error (.NotAuthorized sender) := by
  unfold grantAccess
  rw [if_neg htarget, getDocumentChecked_eq, if_neg hex]
  simp only [ne_eq, hnotowner, not_false_eq_true, if_true]

/-- Claim C6 witness: Bob (5) is an editor of document 1 (granted by the
owner 7), yet his own attempt to grant 6 fails with `NotAuthorized`. -/
theorem claim_C6_witness :
    (run [Op.create 7 "plan" 11 100, Op.grant 7 1 5]).editors 1 5 = true ∧
    (6 : Address) ≠ 0 ∧
    ((run [Op.create 7 "plan" 11 100, Op.grant 7 1 5]).documents 1).owner ≠ 0 ∧
    (5 : Address) ≠
      ((run [Op.create 7 "plan" 11 100, Op.grant 7 1 5]).documents 1).owner ∧
    grantAccess (run [Op.create 7 "plan" 11 100, Op.grant 7 1 5]) 5 1 6 =
      .error (.NotAuthorized 5) :=
  ⟨by decide, by decide, by decide, by decide,
    claim_C6 (run [Op.create 7 "plan" 11 100, Op.grant 7 1 5]) 5 1 6
      (by decide) (by decide) (by decide)⟩

/-- Claim C9: immediately after a successful `createDocument`, the caller
is an editor of the returned id, and `getDocument` on it succeeds with an
empty `encryptedBody`, the caller as owner, and `createdAt = updatedAt`. -/
theorem claim_C9 (s : State) (caller : Address) (name : String)
    (key time : Nat) (hc : caller ≠ 0) :
    isEditor (createDocument s caller name key time).2
        (createDocument s caller name key time).1 caller = .ok true ∧
    ∃ d, getDocument (createDocument s caller name key time).2
        (createDocument s caller name key time).1 = .ok d ∧
      d.encryptedBody = "" ∧ d.owner = caller ∧
      d.createdAt = d.updatedAt := by
  have hfst : (createDocument s caller name key time).1 =
      s.documentCount + 1 := rfl
  have hdoc : (createDocument s caller name key time).2.documents
      (s.documentCount + 1) =
      { name := name, encryptedBody := "", encryptedKey := key,
        owner := caller, createdAt := time, updatedAt := time } := by
    rw [createDocument_documents, if_pos rfl]
  have hchk : getDocumentChecked (createDocument s caller name key time).2
      (s.documentCount + 1) =
      .ok { name := name, encryptedBody := "", encryptedKey := key,
            owner := caller, createdAt := time, updatedAt := time } := by
    rw [getDocumentChecked_eq, hdoc]
    exact if_neg hc
  constructor
  · unfold isEditor
    rw [hfst, hchk]
    show Except.ok ((createDocument s caller name key time).2.editors
      (s.documentCount + 1) caller) = .ok true
    rw [createDocument_editors, if_pos ⟨rfl, rfl⟩]
  · refine ⟨{ name := name, encryptedBody := "", encryptedKey := key,
               owner := caller, createdAt := time, updatedAt := time },
      ?_, rfl, rfl, rfl⟩
    unfold getDocument
    rw [hfst]
    exact hchk

/-- Claim C9 witness: creating document 1 as caller 7 with key 11 at time
100 makes 7 an editor and yields an empty body with equal timestamps. -/
theorem claim_C9_witness :
    (7 : Address) ≠ 0 ∧
    (isEditor (createDocument initState 7 "plan" 11 100).2
        (createDocument initState 7 "plan" 11 100).1 7 = .ok true ∧
    ∃ d, getDocument (createDocument initState 7 "plan" 11 100).2
        (createDocument initState 7 "plan" 11 100).1 = .ok d ∧
      d.encryptedBody = "" ∧ d.owner = 7 ∧
      d.createdAt = d.updatedAt) :=
  ⟨by decide, claim_C9 initState 7 "plan" 11 100 (by decide)⟩

/-- Claim C2: in every state reachable from a fresh deployment by any
sequence of calls, every existing document's owner is in its editor set:
`isEditor id owner` returns `true`; moreover no operation ever removes an
editor-set member. -/
theorem claim_C2 :
    (∀ (ops : List Op) (id : Nat),
      ((run ops).documents id).owner ≠ 0 →
      isEditor (run ops) id (((run ops).documents id).owner) = .ok true) ∧
    (∀ (s : State) (op : Op) (i : Nat) (u : Address),
      s.editors i u = true → (applyOp s op).editors i u = true) := by
  constructor
  · intro ops id h
    unfold isEditor
    rw [getDocumentChecked_eq, if_neg h]
    show Except.ok ((run ops).editors id (((run ops).documents id).owner)) =
      .ok true
    rw [ownerIsEditor_run ops id h]
  · exact editors_mono_applyOp

/-- Claim C2 witness: after creating a document as 7 and granting 5,
document 1 exists and `isEditor 1 7` (its owner) returns `true`. -/
theorem claim_C2_witness :
    ((run [Op.create 7 "plan" 11 100, Op.grant 7 1 5]).documents 1).owner ≠ 0 ∧
    isEditor (run [Op.create 7 "plan" 11 100, Op.grant 7 1 5]) 1
      (((run [Op.create 7 "plan" 11 100, Op.grant 7 1 5]).documents 1).owner) =
      .ok true :=
  ⟨by decide,
    claim_C2.1 [Op.create 7 "plan" 11 100, Op.grant 7 1 5] 1 (by decide)⟩

/-- Claim C3: over every call sequence, the ids returned by the successful
`createDocument` calls are exactly `1, 2, ..., n` in order (strictly
increasing, dense, starting at 1), `documentCount` equals the number `n`
of successful creations, and 0 is never a returned id. -/
theorem claim_C3 (ops : List Op) :
    (runAcc ops).2 = List.range' 1 (ops.countP (fun o => o.isCreate)) ∧
    (run ops).documentCount = ops.countP (fun o => o.isCreate) ∧
    (0 : Nat) ∉ (runAcc ops).2 := by
  have h2 : (runAcc ops).2 =
      List.range' 1 (ops.countP (fun o => o.isCreate)) := by
    show (ops.foldl applyOpAcc (initState, [])).2 = _
    rw [foldl_applyOpAcc_snd]
    show [] ++ List.range' (0 + 1) _ = _
    simp
  refine ⟨h2, ?_, ?_⟩
  · show (ops.foldl applyOp initState).documentCount = _
    rw [foldl_applyOp_documentCount]
    show 0 + _ = _
    omega
  · rw [h2]
    intro hmem
    rw [List.mem_range'_1] at hmem
    omega

/-- Claim C4: `getDocument` on any id never returned by a successful
creation — including 0 — fails with `DocumentNotFound`; and at the level
of the code, existence is decided exactly by the owner field being set,
not by comparing the id against the counter. -/
theorem claim_C4 :
    (∀ (ops : List Op) (id : Nat), id ∉ (runAcc ops).2 →
      getDocument (run ops) id = .error (.DocumentNotFound id)) ∧
    (∀ (s : State) (id : Nat),
      getDocument s id = .error (.DocumentNotFound id) ↔
        (s.documents id).owner = 0) := by
  constructor
  · intro ops id hmem
    have hids : (runAcc ops).2 =
        List.range' 1 (ops.countP (fun o => o.isCreate)) := by
      show (ops.foldl applyOpAcc (initState, [])).2 = _
      rw [foldl_applyOpAcc_snd]
      show [] ++ List.range' (0 + 1) _ = _
      simp
    rw [hids, List.mem_range'_1] at hmem
    have hcount : (run ops).documentCount =
        ops.countP (fun o => o.isCreate) := by
      show (ops.foldl applyOp initState).documentCount = _
      rw [foldl_applyOp_documentCount]
      show 0 + _ = _
      omega
    have hbad : id = 0 ∨ (run ops).documentCount < id := by
      rw [hcount]
      omega
    have hdef := docIdsBounded_run ops id hbad
    unfold getDocument
    rw [getDocumentChecked_eq]
    rw [if_pos (by rw [hdef]; rfl)]
  · intro s id
    constructor
    · intro h
      by_contra hne
      unfold getDocument at h
      rw [getDocumentChecked_eq, if_neg hne] at h
      exact Except.noConfusion h
    · intro h
      unfold getDocument
      rw [getDocumentChecked_eq, if_pos h]

/-- Claim C4 witness: after one creation, ids 0 and 2 were never returned
and `getDocument` fails with `DocumentNotFound` on both. -/
theorem claim_C4_witness :
    (0 : Nat) ∉ (runAcc [Op.create 7 "plan" 11 100]).2 ∧
    (2 : Nat) ∉ (runAcc [Op.create 7 "plan" 11 100]).2 ∧
    getDocument (run [Op.create 7 "plan" 11 100]) 0 =
      .error (.DocumentNotFound 0) ∧
    getDocument (run [Op.create 7 "plan" 11 100]) 2 =
      .error (.DocumentNotFound 2) :=
  ⟨by decide, by decide,
    claim_C4.1 [Op.create 7 "plan" 11 100] 0 (by decide),
    claim_C4.1 [Op.create 7 "plan" 11 100] 2 (by decide)⟩

/-- Claim C8: re-granting an already-granted target by the owner does not
fail and is a no-op on the observable access state: the editor set is
pointwise unchanged and `isEditor` gives the same answer for every
document id and identity. -/
theorem claim_C8 (s : State) (documentId : Nat) (target : Address)
    (htarget : target ≠ 0) (hex : (s.documents documentId).owner ≠ 0)
    (hgranted : s.editors documentId target = true) :
    ∃ s', grantAccess s ((s.documents documentId).owner) documentId target =
        .ok s' ∧
      (∀ i u, s'.editors i u = s.editors i u) ∧
      (∀ i u, isEditor s' i u = isEditor s i u) := by
  have hE : ∀ i u,
      (if i = documentId ∧ u = target then true else s.editors i u) =
        s.editors i u := by
    intro i u
    by_cases hc : i = documentId ∧ u = target
    · rw [if_pos hc, hc.1, hc.2]
      exact hgranted.symm
    · rw [if_neg hc]
  refine ⟨_, grantAccess_succeeds s ((s.documents documentId).owner)
      documentId target htarget hex rfl, fun i u => hE i u, ?_⟩
  intro i u
  rw [isEditor_setEditors]
  unfold isEditor
  cases hch : getDocumentChecked s i with
  | error e => rfl
  | ok d => exact congrArg Except.ok (hE i u)

/-- Claim C8 witness: the owner 7 re-grants the already-granted 5 on
document 1; the call succeeds and the observable access state is
unchanged. -/
theorem claim_C8_witness :
    (5 : Address) ≠ 0 ∧
    ((run [Op.create 7 "plan" 11 100, Op.grant 7 1 5]).documents 1).owner ≠ 0 ∧
    (run [Op.create 7 "plan" 11 100, Op.grant 7 1 5]).editors 1 5 = true ∧
    (∃ s', grantAccess (run [Op.create 7 "plan" 11 100, Op.grant 7 1 5])
        (((run [Op.create 7 "plan" 11 100, Op.grant 7 1 5]).documents
          1).owner) 1 5 = .ok s' ∧
      (∀ i u, s'.editors i u =
        (run [Op.create 7 "plan" 11 100, Op.grant 7 1 5]).editors i u) ∧
      (∀ i u, isEditor s' i u =
        isEditor (run [Op.create 7 "plan" 11 100, Op.grant 7 1 5]) i u)) :=
  ⟨by decide, by decide, by decide,
    claim_C8 (run [Op.create 7 "plan" 11 100, Op.grant 7 1 5]) 1 5
      (by decide) (by decide) (by decide)⟩

/-- Claim C1: after `owner` creates a document (returning its id),
`grantAccess(owner, id, target)` with a non-zero `target` succeeds;
afterwards `isEditor(id, target)` returns `true`, and a subsequent
`updateDocument(target, id, body)` succeeds, sets the document's
`encryptedBody` to `body` and advances `updatedAt` (the environment
guarantees block timestamps never decrease, here `t0 ≤ t2`). -/
theorem claim_C1 (s : State) (owner : Address) (name : String)
    (key t0 : Nat) (target : Address) (body : String) (t2 : Nat)
    (howner : owner ≠ 0) (htarget : target ≠ 0) (ht : t0 ≤ t2) :
    (∃ s2, grantAccess (createDocument s owner name key t0).2 owner
      (createDocument s owner name key t0).1 target = .ok s2) ∧
    ∀ s2, grantAccess (createDocument s owner name key t0).2 owner
        (createDocument s owner name key t0).1 target = .ok s2 →
      isEditor s2 (createDocument s owner name key t0).1 target = .ok true ∧
      (∃ s3, updateDocument s2 target (createDocument s owner name key t0).1
        body t2 = .ok s3) ∧
      ∀ s3, updateDocument s2 target (createDocument s owner name key t0).1
          body t2 = .ok s3 →
        (s3.documents (createDocument s owner name key t0).1).encryptedBody
          = body ∧
        (s3.documents (createDocument s owner name key t0).1).updatedAt
          = t2 ∧
        (s2.documents (createDocument s owner name key t0).1).updatedAt ≤
          (s3.documents (createDocument s owner name key t0).1).updatedAt := by
  have hfst : (createDocument s owner name key t0).1 =
      s.documentCount + 1 := rfl
  rw [hfst]
  have hdoc : (createDocument s owner name key t0).2.documents
      (s.documentCount + 1) =
      { name := name, encryptedBody := "", encryptedKey := key,
        owner := owner, createdAt := t0, updatedAt := t0 } := by
    rw [createDocument_documents, if_pos rfl]
  have hex1 : (((createDocument s owner name key t0).2).documents
      (s.documentCount + 1)).owner ≠ 0 := by
    rw [hdoc]; exact howner
  have hown1 : owner = (((createDocument s owner name key t0).2).documents
      (s.documentCount + 1)).owner := by
    rw [hdoc]
  constructor
  · exact ⟨_, grantAccess_succeeds (createDocument s owner name key t0).2
      owner (s.documentCount + 1) target htarget hex1 hown1⟩
  · intro s2 hg
    obtain ⟨hs2, _, _, _⟩ := grantAccess_ok _ owner (s.documentCount + 1)
      target s2 hg
    subst hs2
    refine ⟨?_, ?_, ?_⟩
    · unfold isEditor
      rw [getDocumentChecked_eq]
      simp [hdoc, howner]
    · exact ⟨_, updateDocument_succeeds _ target (s.documentCount + 1)
        body t2 (by exact hex1) (by exact if_pos ⟨rfl, rfl⟩)⟩
    · intro s3 hu
      obtain ⟨hs3, _, _⟩ := updateDocument_ok _ target (s.documentCount + 1)
        body t2 s3 hu
      subst hs3
      refine ⟨?_, ?_, ?_⟩
      · simp
      · simp
      · simp [hdoc]
        exact ht

/-- Claim C1 witness: 7 creates document 1 at time 100, grants 5, and 5
then updates the body at time 200. -/
theorem claim_C1_witness :
    (7 : Address) ≠ 0 ∧ (5 : Address) ≠ 0 ∧ (100 : Nat) ≤ 200 ∧
    ((∃ s2, grantAccess (createDocument initState 7 "plan" 11 100).2 7
      (createDocument initState 7 "plan" 11 100).1 5 = .ok s2) ∧
    ∀ s2, grantAccess (createDocument initState 7 "plan" 11 100).2 7
        (createDocument initState 7 "plan" 11 100).1 5 = .ok s2 →
      isEditor s2 (createDocument initState 7 "plan" 11 100).1 5 =
        .ok true ∧
      (∃ s3, updateDocument s2 5 (createDocument initState 7 "plan" 11 100).1
        "cipher" 200 = .ok s3) ∧
      ∀ s3, updateDocument s2 5 (createDocument initState 7 "plan" 11 100).1
          "cipher" 200 = .ok s3 →
        (s3.documents
          (createDocument initState 7 "plan" 11 100).1).encryptedBody
          = "cipher" ∧
        (s3.documents
          (createDocument initState 7 "plan" 11 100).1).updatedAt = 200 ∧
        (s2.documents
          (createDocument initState 7 "plan" 11 100).1).updatedAt ≤
          (s3.documents
            (createDocument initState 7 "plan" 11 100).1).updatedAt) :=
  ⟨by decide, by decide, by decide,
    claim_C1 initState 7 "plan" 11 100 5 "cipher" 200
      (by decide) (by decide) (by decide)⟩

end VaultGrid
